import Mathlib

/-!
Shallow embedding of the sneaker / energy-drink / vape CRUD services
(src/app.py, src/energy.py, src/vape.py).  The three resources instantiate
one generic repository pattern; the sneaker resource is embedded in full
and the vape resource is embedded for the claims that cite it.

The SQLite table backing a repository is modelled as a list of rows in
rowid order together with the next auto-assigned primary key.  SQLAlchemy
query combinators are modelled stage by stage, in the order the source
applies them: filters, search, sort, offset, limit.
-/

set_option linter.unusedVariables false

/-- One row of the sneakers table (class Sneaker in src/app.py):
integer primary key plus brand, model, price columns. -/
structure Sneaker where
  id : Nat
  brand : String
  model : String
  price : Int
deriving DecidableEq, Repr

/-- Pydantic model SneakerCreate: all non-id fields required. -/
structure SneakerCreate where
  brand : String
  model : String
  price : Int
deriving DecidableEq, Repr

/-- Pydantic model SneakerUpdate: every field optional, none meaning the
field was omitted from the request body (exclude_unset). -/
structure SneakerUpdate where
  brand : Option String := none
  model : Option String := none
  price : Option Int := none
deriving DecidableEq, Repr

/-- State of the sneakers table: rows in insertion (rowid) order and the
next primary key SQLite will assign. -/
structure SneakerStore where
  records : List Sneaker
  nextId : Nat
deriving DecidableEq, Repr

/-- The freshly created sneakers.db: no rows, first assigned id is 1. -/
def SneakerStore.empty : SneakerStore := { records := [], nextId := 1 }

/-- Query parameters of GET /sneakers/ as the route declares them,
with the route defaults. -/
structure SneakerQuery where
  skip : Nat := 0
  limit : Nat := 10
  sort_by : Option String := none
  sort_order : String := "asc"
  filter_brand : Option String := none
  filter_price_min : Option Int := none
  filter_price_max : Option Int := none
  search : Option String := none
deriving DecidableEq, Repr

/-- Python truthiness of an Optional[str]: None and the empty string are
falsy, every other string is truthy. -/
def truthyStr : Option String → Bool
  | none => false
  | some s => !(s == "")

/-- Python truthiness of an Optional[int]: None and 0 are falsy. -/
def truthyInt : Option Int → Bool
  | none => false
  | some n => !(n == 0)

/-- Python str.lower(), character by character; Char.toLower lowers the
ASCII range, which covers the desc literal the source compares against. -/
def strLower (s : String) : String :=
  String.mk (s.data.map Char.toLower)

/-- SQLite LIKE comparison of one pattern character against one text
character: equality up to ASCII case (SQLite LIKE folds case only in the
ASCII range, exactly the range Char.toLower folds). -/
def likeCharEq (p c : Char) : Bool :=
  p.toLower == c.toLower

/-- SQLite LIKE matching of a pattern against a text: percent matches any
run of characters, underscore matches any single character, anything else
matches one character up to ASCII case.  The fuel only bounds the
recursion; every recursive call shrinks pattern length plus text length,
so pattern length plus text length plus one steps always suffice. -/
def likeMatchAux : Nat → List Char → List Char → Bool
  | 0, _, _ => false
  | _ + 1, [], [] => true
  | _ + 1, [], _ :: _ => false
  | n + 1, '%' :: ps, [] => likeMatchAux n ps []
  | n + 1, '%' :: ps, c :: ts =>
      likeMatchAux n ps (c :: ts) || likeMatchAux n ('%' :: ps) ts
  | _ + 1, '_' :: _, [] => false
  | n + 1, '_' :: ps, _ :: ts => likeMatchAux n ps ts
  | _ + 1, _ :: _, [] => false
  | n + 1, q :: ps, c :: ts => likeCharEq q c && likeMatchAux n ps ts

/-- SQLite LIKE with adequate fuel. -/
def likeMatch (p t : List Char) : Bool :=
  likeMatchAux (p.length + t.length + 1) p t

/-- What column.contains(needle) evaluates to on the SQLite backend the
source configures: column LIKE percent, needle, percent — an
ASCII-case-insensitive containment in which percent and underscore inside
the needle act as wildcards. -/
def sqlLike (text needle : String) : Bool :=
  likeMatch ('%' :: (needle.toList ++ ['%'])) text.toList

namespace SneakerRepository

/-- Stage `if filter_brand: query.filter(Sneaker.brand == filter_brand)`
of SneakerRepository.get_all. -/
def brandFilter (fb : Option String) (l : List Sneaker) : List Sneaker :=
  if truthyStr fb then l.filter (fun r => r.brand == fb.getD "") else l

/-- Stage `if filter_price_min: query.filter(Sneaker.price >= filter_price_min)`. -/
def priceMinFilter (pmin : Option Int) (l : List Sneaker) : List Sneaker :=
  if truthyInt pmin then l.filter (fun r => pmin.getD 0 ≤ r.price) else l

/-- Stage `if filter_price_max: query.filter(Sneaker.price <= filter_price_max)`. -/
def priceMaxFilter (pmax : Option Int) (l : List Sneaker) : List Sneaker :=
  if truthyInt pmax then l.filter (fun r => r.price ≤ pmax.getD 0) else l

/-- Stage `if search: query.filter(brand.contains(search) | model.contains(search))`;
contains compiles to SQLite LIKE with percent on both sides. -/
def searchFilter (s : Option String) (l : List Sneaker) : List Sneaker :=
  if truthyStr s then
    l.filter (fun r => sqlLike r.brand (s.getD "") || sqlLike r.model (s.getD ""))
  else l

/-- The declared mapped columns of the Sneaker model, the attributes
`getattr(Sneaker, sort_by, None)` resolves to an orderable column. -/
inductive SneakerColumn where
  | id | brand | model | price
deriving DecidableEq, Repr

/-- Dynamic attribute lookup `getattr(Sneaker, name, None)` restricted to
the declared columns; any other name yields None. -/
def getattrColumn : String → Option SneakerColumn
  | "id" => some SneakerColumn.id
  | "brand" => some SneakerColumn.brand
  | "model" => some SneakerColumn.model
  | "price" => some SneakerColumn.price
  | _ => none

/-- Ascending comparison on one column, the order ORDER BY column ASC uses. -/
def columnLe : SneakerColumn → Sneaker → Sneaker → Bool
  | SneakerColumn.id, a, b => a.id ≤ b.id
  | SneakerColumn.brand, a, b => decide (a.brand ≤ b.brand)
  | SneakerColumn.model, a, b => decide (a.model ≤ b.model)
  | SneakerColumn.price, a, b => a.price ≤ b.price

/-- Stage `if sort_by: column = getattr(...); if column is not None: ...`
of get_all: sort ascending unless sort_order.lower() == "desc". -/
def sortStage (sort_by : Option String) (sort_order : String) (l : List Sneaker) :
    List Sneaker :=
  if truthyStr sort_by then
    match getattrColumn (sort_by.getD "") with
    | none => l
    | some col =>
        if strLower sort_order == "desc" then
          List.insertionSort (fun a b => columnLe col b a = true) l
        else
          List.insertionSort (fun a b => columnLe col a b = true) l
  else l

/-- The rows satisfying every filter of the query, before sorting and
pagination: the filter stages of get_all in source order. -/
def matchedRecords (st : SneakerStore) (q : SneakerQuery) : List Sneaker :=
  searchFilter q.search
    (priceMaxFilter q.filter_price_max
      (priceMinFilter q.filter_price_min
        (brandFilter q.filter_brand st.records)))

/-- SneakerRepository.get_all: filters, search, sort, then
`.offset(skip).limit(limit).all()`. -/
def get_all (st : SneakerStore) (q : SneakerQuery) : List Sneaker :=
  ((sortStage q.sort_by q.sort_order (matchedRecords st q)).drop q.skip).take q.limit

/-- SneakerRepository.get_by_id: `.filter(Sneaker.id == sneaker_id).first()`. -/
def get_by_id (st : SneakerStore) (i : Nat) : Option Sneaker :=
  (st.records.filter (fun r => r.id == i)).head?

/-- SneakerRepository.create: build a row from the required fields, insert,
commit; SQLite assigns the next primary key.  Returns the stored row and
the new table state. -/
def create (st : SneakerStore) (d : SneakerCreate) : Sneaker × SneakerStore :=
  let r : Sneaker := { id := st.nextId, brand := d.brand, model := d.model, price := d.price }
  (r, { records := st.records ++ [r], nextId := st.nextId + 1 })

/-- The setattr loop of SneakerRepository.update: each field present in
`sneaker_data.dict(exclude_unset=True)` is written, omitted fields keep
their prior value; id is not a field of SneakerUpdate. -/
def applyUpdate (u : SneakerUpdate) (r : Sneaker) : Sneaker :=
  { r with
    brand := u.brand.getD r.brand
    model := u.model.getD r.model
    price := u.price.getD r.price }

/-- Replace the first row whose id matches, the in-place mutation of the
row object returned by first(). -/
def replaceById (i : Nat) (r2 : Sneaker) : List Sneaker → List Sneaker
  | [] => []
  | x :: xs => if x.id == i then r2 :: xs else x :: replaceById i r2 xs

/-- SneakerRepository.update: look the row up; if absent return None and
leave the table untouched (no upsert), else apply the supplied fields and
commit.  Returns the result and the new table state. -/
def update (st : SneakerStore) (i : Nat) (u : SneakerUpdate) :
    Option Sneaker × SneakerStore :=
  match get_by_id st i with
  | none => (none, st)
  | some r =>
      let r2 := applyUpdate u r
      (some r2, { st with records := replaceById i r2 st.records })

/-- SneakerRepository.delete: look the row up; if absent return False,
else delete the row and commit, returning True. -/
def delete (st : SneakerStore) (i : Nat) : Bool × SneakerStore :=
  match get_by_id st i with
  | none => (false, st)
  | some _ =>
      (true, { st with records := st.records.eraseP (fun r => r.id == i) })

end SneakerRepository

/-- The store states the service can reach: the fresh database, then any
sequence of create, update, delete calls. -/
inductive ReachableStore : SneakerStore → Prop where
  | init : ReachableStore SneakerStore.empty
  | createStep {st : SneakerStore} (d : SneakerCreate) :
      ReachableStore st → ReachableStore (SneakerRepository.create st d).2
  | updateStep {st : SneakerStore} (i : Nat) (u : SneakerUpdate) :
      ReachableStore st → ReachableStore (SneakerRepository.update st i u).2
  | deleteStep {st : SneakerStore} (i : Nat) :
      ReachableStore st → ReachableStore (SneakerRepository.delete st i).2

/-- Table invariant: ids are pairwise distinct and every id is below the
next key to be assigned. -/
def StoreInv (st : SneakerStore) : Prop :=
  (st.records.map Sneaker.id).Nodup ∧ ∀ r ∈ st.records, r.id < st.nextId

/-- One row of the vapes table (class Vape in src/vape.py); the Float
columns carry no arithmetic in the source, only comparisons, so they are
embedded as rationals. -/
structure Vape where
  id : Nat
  brand : String
  model : String
  price : ℚ
  power_level : ℚ
deriving DecidableEq, Repr

/-- State of the vapes table. -/
structure VapeStore where
  records : List Vape
  nextId : Nat
deriving DecidableEq, Repr

/-- Query parameters of GET /vapes/ with the route defaults. -/
structure VapeQuery where
  skip : Nat := 0
  limit : Nat := 10
  sort_by : Option String := none
  sort_order : String := "asc"
  filter_brand : Option String := none
  filter_price_min : Option ℚ := none
  filter_price_max : Option ℚ := none
  search : Option String := none
deriving DecidableEq, Repr

/-- Python truthiness of an Optional[float]: None and 0.0 are falsy. -/
def truthyRat : Option ℚ → Bool
  | none => false
  | some x => !(x == 0)

namespace VapeRepository

/-- Stage `if filter_brand: query.filter(Vape.brand == filter_brand)`
of VapeRepository.get_all. -/
def brandFilter (fb : Option String) (l : List Vape) : List Vape :=
  if truthyStr fb then l.filter (fun r => r.brand == fb.getD "") else l

/-- Stage `if filter_price_min: query.filter(Vape.price >= filter_price_min)`. -/
def priceMinFilter (pmin : Option ℚ) (l : List Vape) : List Vape :=
  if truthyRat pmin then l.filter (fun r => pmin.getD 0 ≤ r.price) else l

/-- Stage `if filter_price_max: query.filter(Vape.price <= filter_price_max)`. -/
def priceMaxFilter (pmax : Option ℚ) (l : List Vape) : List Vape :=
  if truthyRat pmax then l.filter (fun r => r.price ≤ pmax.getD 0) else l

/-- Stage `if search: query.filter(brand.contains(search) | model.contains(search))`;
contains compiles to SQLite LIKE with percent on both sides. -/
def searchFilter (s : Option String) (l : List Vape) : List Vape :=
  if truthyStr s then
    l.filter (fun r => sqlLike r.brand (s.getD "") || sqlLike r.model (s.getD ""))
  else l

/-- The declared mapped columns of the Vape model. -/
inductive VapeColumn where
  | id | brand | model | price | power_level
deriving DecidableEq, Repr

/-- Dynamic attribute lookup `getattr(Vape, name, None)` restricted to the
declared columns. -/
def getattrColumn : String → Option VapeColumn
  | "id" => some VapeColumn.id
  | "brand" => some VapeColumn.brand
  | "model" => some VapeColumn.model
  | "price" => some VapeColumn.price
  | "power_level" => some VapeColumn.power_level
  | _ => none

/-- Ascending comparison on one Vape column. -/
def columnLe : VapeColumn → Vape → Vape → Bool
  | VapeColumn.id, a, b => a.id ≤ b.id
  | VapeColumn.brand, a, b => decide (a.brand ≤ b.brand)
  | VapeColumn.model, a, b => decide (a.model ≤ b.model)
  | VapeColumn.price, a, b => decide (a.price ≤ b.price)
  | VapeColumn.power_level, a, b => decide (a.power_level ≤ b.power_level)

/-- The sort stage of VapeRepository.get_all. -/
def sortStage (sort_by : Option String) (sort_order : String) (l : List Vape) :
    List Vape :=
  if truthyStr sort_by then
    match getattrColumn (sort_by.getD "") with
    | none => l
    | some col =>
        if strLower sort_order == "desc" then
          List.insertionSort (fun a b => columnLe col b a = true) l
        else
          List.insertionSort (fun a b => columnLe col a b = true) l
  else l

/-- The rows satisfying every filter of the vape query, in source order. -/
def matchedRecords (st : VapeStore) (q : VapeQuery) : List Vape :=
  searchFilter q.search
    (priceMaxFilter q.filter_price_max
      (priceMinFilter q.filter_price_min
        (brandFilter q.filter_brand st.records)))

/-- VapeRepository.get_all: filters, search, sort, then
`.offset(skip).limit(limit).all()`. -/
def get_all (st : VapeStore) (q : VapeQuery) : List Vape :=
  ((sortStage q.sort_by q.sort_order (matchedRecords st q)).drop q.skip).take q.limit

end VapeRepository

namespace SneakerRepository

theorem get_by_id_mem {st : SneakerStore} {i : Nat} {r : Sneaker}
    (h : get_by_id st i = some r) :
    r ∈ st.records.filter (fun x => x.id == i) := by
  unfold get_by_id at h
  cases hl : st.records.filter (fun x => x.id == i) with
  | nil => rw [hl] at h; simp at h
  | cons a t =>
      rw [hl] at h
      simp only [List.head?_cons, Option.some.injEq] at h
      rw [h] at hl ⊢
      exact hl ▸ List.mem_cons_self r t

theorem get_by_id_id {st : SneakerStore} {i : Nat} {r : Sneaker}
    (h : get_by_id st i = some r) : r.id = i := by
  have hm := get_by_id_mem h
  have := List.of_mem_filter hm
  simpa using this

theorem get_by_id_mem_records {st : SneakerStore} {i : Nat} {r : Sneaker}
    (h : get_by_id st i = some r) : r ∈ st.records :=
  List.mem_of_mem_filter (get_by_id_mem h)

theorem replaceById_map_id {i : Nat} {r2 : Sneaker} (h : r2.id = i) :
    ∀ l : List Sneaker, (replaceById i r2 l).map Sneaker.id = l.map Sneaker.id
  | [] => rfl
  | x :: xs => by
      unfold replaceById
      by_cases hx : x.id = i
      · simp [hx, h]
      · simp only [beq_iff_eq, hx, if_false, List.map_cons, replaceById_map_id h xs]

theorem replaceById_self {i : Nat} {r : Sneaker} :
    ∀ {l : List Sneaker}, (l.filter (fun x => x.id == i)).head? = some r →
      replaceById i r l = l
  | [], h => rfl
  | x :: xs, h => by
      unfold replaceById
      by_cases hx : x.id = i
      · rw [List.filter_cons_of_pos (by simpa using hx)] at h
        simp only [List.head?_cons, Option.some.injEq] at h
        have hxb : (x.id == i) = true := by simpa using hx
        rw [if_pos hxb, h]
      · rw [List.filter_cons_of_neg (by simpa using hx)] at h
        simp only [beq_iff_eq, hx, if_false, List.cons.injEq, true_and]
        exact replaceById_self h

theorem filter_replaceById {i : Nat} {r2 : Sneaker} (h2 : r2.id = i) :
    ∀ {l : List Sneaker}, (l.filter (fun x => x.id == i)).head? ≠ none →
      ((replaceById i r2 l).filter (fun x => x.id == i)).head? = some r2
  | [], h => by simp at h
  | x :: xs, h => by
      unfold replaceById
      by_cases hx : x.id = i
      · have hxb : (x.id == i) = true := by simpa using hx
        rw [if_pos hxb, List.filter_cons_of_pos (by simpa using h2)]
        simp
      · rw [List.filter_cons_of_neg (by simpa using hx)] at h
        simp only [beq_iff_eq, hx, if_false]
        rw [List.filter_cons_of_neg (by simpa using hx)]
        exact filter_replaceById h2 h

theorem sortStage_perm (sb : Option String) (so : String) (l : List Sneaker) :
    (sortStage sb so l).Perm l := by
  unfold sortStage
  by_cases ht : truthyStr sb = true
  · rw [if_pos ht]
    cases getattrColumn (sb.getD "") with
    | none => exact List.Perm.refl l
    | some col =>
        by_cases hd : (strLower so == "desc") = true
        · simp only [hd, if_true]
          exact List.perm_insertionSort _ l
        · simp only [hd, if_false]
          exact List.perm_insertionSort _ l
  · rw [if_neg ht]

theorem sortStage_length (sb : Option String) (so : String) (l : List Sneaker) :
    (sortStage sb so l).length = l.length :=
  (sortStage_perm sb so l).length_eq

theorem columnLe_total (col : SneakerColumn) (a b : Sneaker) :
    columnLe col a b = true ∨ columnLe col b a = true := by
  cases col <;> simp only [columnLe, decide_eq_true_iff]
  · exact Nat.le_total a.id b.id
  · exact le_total a.brand b.brand
  · exact le_total a.model b.model
  · exact Int.le_total a.price b.price

theorem columnLe_trans (col : SneakerColumn) {a b c : Sneaker}
    (h1 : columnLe col a b = true) (h2 : columnLe col b c = true) :
    columnLe col a c = true := by
  cases col <;> simp only [columnLe, decide_eq_true_iff] at h1 h2 ⊢
  · exact Nat.le_trans h1 h2
  · exact le_trans h1 h2
  · exact le_trans h1 h2
  · exact Int.le_trans h1 h2

end SneakerRepository

theorem storeInv_empty : StoreInv SneakerStore.empty := by
  constructor
  · exact List.nodup_nil
  · intro r hr
    simp [SneakerStore.empty] at hr

theorem storeInv_create {st : SneakerStore} (d : SneakerCreate) (h : StoreInv st) :
    StoreInv (SneakerRepository.create st d).2 := by
  obtain ⟨hnd, hlt⟩ := h
  constructor
  · simp only [SneakerRepository.create, List.map_append, List.map_cons, List.map_nil]
    rw [List.nodup_append]
    refine ⟨hnd, List.nodup_singleton _, ?_⟩
    intro a ha hb
    simp only [List.mem_singleton] at hb
    obtain ⟨y, hy, hya⟩ := List.mem_map.mp ha
    have := hlt y hy
    omega
  · intro r hr
    simp only [SneakerRepository.create] at hr ⊢
    rcases List.mem_append.mp hr with h1 | h1
    · exact Nat.lt_succ_of_lt (hlt r h1)
    · simp only [List.mem_singleton] at h1
      rw [h1]
      exact Nat.lt_succ_self _

theorem storeInv_update {st : SneakerStore} (i : Nat) (u : SneakerUpdate)
    (h : StoreInv st) : StoreInv (SneakerRepository.update st i u).2 := by
  obtain ⟨hnd, hlt⟩ := h
  unfold SneakerRepository.update
  cases hg : SneakerRepository.get_by_id st i with
  | none => exact ⟨hnd, hlt⟩
  | some r =>
      have hid : (SneakerRepository.applyUpdate u r).id = i := by
        have := SneakerRepository.get_by_id_id hg
        simpa [SneakerRepository.applyUpdate] using this
      constructor
      · simpa [SneakerRepository.replaceById_map_id hid] using hnd
      · intro x hx
        simp only at hx
        have hmem : x.id ∈ (SneakerRepository.replaceById i
            (SneakerRepository.applyUpdate u r) st.records).map Sneaker.id :=
          List.mem_map_of_mem Sneaker.id hx
        rw [SneakerRepository.replaceById_map_id hid] at hmem
        obtain ⟨y, hy, hyx⟩ := List.mem_map.mp hmem
        simpa [← hyx] using hlt y hy

theorem storeInv_delete {st : SneakerStore} (i : Nat) (h : StoreInv st) :
    StoreInv (SneakerRepository.delete st i).2 := by
  obtain ⟨hnd, hlt⟩ := h
  unfold SneakerRepository.delete
  cases hg : SneakerRepository.get_by_id st i with
  | none => exact ⟨hnd, hlt⟩
  | some r =>
      constructor
      · exact List.Nodup.sublist ((List.eraseP_sublist st.records).map Sneaker.id) hnd
      · intro x hx
        simp only at hx
        exact hlt x (List.mem_of_mem_eraseP hx)

theorem reachable_inv {st : SneakerStore} (h : ReachableStore st) : StoreInv st := by
  induction h with
  | init => exact storeInv_empty
  | createStep d _ ih => exact storeInv_create d ih
  | updateStep i u _ ih => exact storeInv_update i u ih
  | deleteStep i _ ih => exact storeInv_delete i ih

/-- Claim C1: for every valid create input, get with the id assigned by
create, immediately after the create, returns a record whose non-id fields
equal the create input and whose id is the assigned id. -/
theorem claim_C1_create_then_get (st : SneakerStore) (d : SneakerCreate)
    (h : ∀ r ∈ st.records, r.id < st.nextId) :
    SneakerRepository.get_by_id (SneakerRepository.create st d).2
        (SneakerRepository.create st d).1.id = some (SneakerRepository.create st d).1 ∧
    (SneakerRepository.create st d).1.brand = d.brand ∧
    (SneakerRepository.create st d).1.model = d.model ∧
    (SneakerRepository.create st d).1.price = d.price ∧
    (SneakerRepository.create st d).1.id = st.nextId := by
  refine ⟨?_, rfl, rfl, rfl, rfl⟩
  unfold SneakerRepository.get_by_id SneakerRepository.create
  simp only
  rw [List.filter_append]
  have h1 : st.records.filter (fun r => r.id == st.nextId) = [] := by
    rw [List.filter_eq_nil_iff]
    intro a ha
    have := h a ha
    simp only [beq_iff_eq]
    omega
  rw [h1]
  simp

/-- Witness for claim C1 at a concrete one-row store and concrete input. -/
theorem claim_C1_create_then_get_witness :
    (∀ r ∈ (⟨[⟨1, "Adidas", "Samba", 80⟩], 2⟩ : SneakerStore).records, r.id < 2) ∧
    SneakerRepository.get_by_id
        (SneakerRepository.create ⟨[⟨1, "Adidas", "Samba", 80⟩], 2⟩ ⟨"Nike", "Air", 100⟩).2
        (SneakerRepository.create ⟨[⟨1, "Adidas", "Samba", 80⟩], 2⟩ ⟨"Nike", "Air", 100⟩).1.id =
      some (SneakerRepository.create ⟨[⟨1, "Adidas", "Samba", 80⟩], 2⟩ ⟨"Nike", "Air", 100⟩).1 :=
  ⟨by decide, (claim_C1_create_then_get _ ⟨"Nike", "Air", 100⟩ (by decide)).1⟩

/-- Claim C2: for an id not present in the store, get reports absence,
update returns absence leaving the store unchanged (no upsert), and delete
returns false leaving the store unchanged; all three are total. -/
theorem claim_C2_missing_id_graceful (st : SneakerStore) (i : Nat) (u : SneakerUpdate)
    (h : SneakerRepository.get_by_id st i = none) :
    SneakerRepository.get_by_id st i = none ∧
    SneakerRepository.update st i u = (none, st) ∧
    SneakerRepository.delete st i = (false, st) := by
  refine ⟨h, ?_, ?_⟩
  · unfold SneakerRepository.update
    rw [h]
  · unfold SneakerRepository.delete
    rw [h]

/-- Witness for claim C2 at a concrete one-row store and an absent id. -/
theorem claim_C2_missing_id_graceful_witness :
    SneakerRepository.get_by_id (⟨[⟨1, "Nike", "Air", 100⟩], 2⟩ : SneakerStore) 99 = none ∧
    SneakerRepository.update (⟨[⟨1, "Nike", "Air", 100⟩], 2⟩ : SneakerStore) 99
        ⟨none, none, some 1⟩ =
      (none, ⟨[⟨1, "Nike", "Air", 100⟩], 2⟩) :=
  ⟨by decide,
    (claim_C2_missing_id_graceful _ 99 ⟨none, none, some 1⟩ (by decide)).2.1⟩

/-- Claim C3: update on an existing record applies exactly the supplied
fields, leaves every omitted field at its prior value, never changes the
id, and the empty partial update leaves the record and the store unchanged. -/
theorem claim_C3_update_applies_supplied_fields (st : SneakerStore) (i : Nat)
    (u : SneakerUpdate) (r : Sneaker) (h : SneakerRepository.get_by_id st i = some r) :
    (∃ r2, (SneakerRepository.update st i u).1 = some r2 ∧
      SneakerRepository.get_by_id (SneakerRepository.update st i u).2 i = some r2 ∧
      r2.id = r.id ∧
      (∀ b, u.brand = some b → r2.brand = b) ∧
      (u.brand = none → r2.brand = r.brand) ∧
      (∀ m, u.model = some m → r2.model = m) ∧
      (u.model = none → r2.model = r.model) ∧
      (∀ p, u.price = some p → r2.price = p) ∧
      (u.price = none → r2.price = r.price)) ∧
    SneakerRepository.update st i { brand := none, model := none, price := none } =
      (some r, st) := by
  have hid : (SneakerRepository.applyUpdate u r).id = i := by
    have := SneakerRepository.get_by_id_id h
    simpa [SneakerRepository.applyUpdate] using this
  constructor
  · refine ⟨SneakerRepository.applyUpdate u r, ?_, ?_, rfl, ?_, ?_, ?_, ?_, ?_, ?_⟩
    · unfold SneakerRepository.update
      rw [h]
    · unfold SneakerRepository.update
      rw [h]
      simp only
      unfold SneakerRepository.get_by_id
      exact SneakerRepository.filter_replaceById hid (by rw [show
        ((st.records.filter (fun x => x.id == i)).head? : Option Sneaker) =
          SneakerRepository.get_by_id st i from rfl, h]; simp)
    · intro b hb
      simp [SneakerRepository.applyUpdate, hb]
    · intro hb
      simp [SneakerRepository.applyUpdate, hb]
    · intro m hm
      simp [SneakerRepository.applyUpdate, hm]
    · intro hm
      simp [SneakerRepository.applyUpdate, hm]
    · intro p hp
      simp [SneakerRepository.applyUpdate, hp]
    · intro hp
      simp [SneakerRepository.applyUpdate, hp]
  · unfold SneakerRepository.update
    rw [h]
    simp only
    have he : SneakerRepository.applyUpdate
        { brand := none, model := none, price := none } r = r := rfl
    rw [he, SneakerRepository.replaceById_self h]

/-- Witness for claim C3 at a concrete store, updating only the price. -/
theorem claim_C3_update_applies_supplied_fields_witness :
    SneakerRepository.get_by_id (⟨[⟨1, "Nike", "Air", 100⟩], 2⟩ : SneakerStore) 1 =
      some ⟨1, "Nike", "Air", 100⟩ ∧
    (∃ r2,
      (SneakerRepository.update (⟨[⟨1, "Nike", "Air", 100⟩], 2⟩ : SneakerStore) 1
          ⟨none, none, some 120⟩).1 = some r2 ∧
      SneakerRepository.get_by_id
          (SneakerRepository.update (⟨[⟨1, "Nike", "Air", 100⟩], 2⟩ : SneakerStore) 1
            ⟨none, none, some 120⟩).2 1 = some r2 ∧
      r2.id = (⟨1, "Nike", "Air", 100⟩ : Sneaker).id ∧
      (∀ b, (⟨none, none, some 120⟩ : SneakerUpdate).brand = some b → r2.brand = b) ∧
      ((⟨none, none, some 120⟩ : SneakerUpdate).brand = none →
        r2.brand = (⟨1, "Nike", "Air", 100⟩ : Sneaker).brand) ∧
      (∀ m, (⟨none, none, some 120⟩ : SneakerUpdate).model = some m → r2.model = m) ∧
      ((⟨none, none, some 120⟩ : SneakerUpdate).model = none →
        r2.model = (⟨1, "Nike", "Air", 100⟩ : Sneaker).model) ∧
      (∀ p, (⟨none, none, some 120⟩ : SneakerUpdate).price = some p → r2.price = p) ∧
      ((⟨none, none, some 120⟩ : SneakerUpdate).price = none →
        r2.price = (⟨1, "Nike", "Air", 100⟩ : Sneaker).price)) :=
  ⟨by decide,
    (claim_C3_update_applies_supplied_fields _ 1 ⟨none, none, some 120⟩ _ (by decide)).1⟩

/-- Claim C4: a filter_price_min or filter_price_max of exactly 0 imposes
no price bound, exactly like an absent parameter, because 0 is falsy. -/
theorem claim_C4_zero_price_bound_is_unset (st : SneakerStore) (q : SneakerQuery) :
    SneakerRepository.get_all st { q with filter_price_min := some 0 } =
      SneakerRepository.get_all st { q with filter_price_min := none } ∧
    SneakerRepository.get_all st { q with filter_price_max := some 0 } =
      SneakerRepository.get_all st { q with filter_price_max := none } := by
  constructor <;>
    simp [SneakerRepository.get_all, SneakerRepository.matchedRecords,
      SneakerRepository.priceMinFilter, SneakerRepository.priceMaxFilter, truthyInt]

/-- Claim C7: limit = 0 yields the empty list whatever the store holds,
and a skip at least the number of matching rows yields the empty list;
the result is always a materialized (never null) list. -/
theorem claim_C7_pagination_empty (st : SneakerStore) (q : SneakerQuery) :
    SneakerRepository.get_all st { q with limit := 0 } = [] ∧
    ((SneakerRepository.matchedRecords st q).length ≤ q.skip →
      SneakerRepository.get_all st q = []) := by
  constructor
  · show (List.take 0 _) = []
    exact List.take_zero _
  · intro h
    unfold SneakerRepository.get_all
    have hlen := SneakerRepository.sortStage_length q.sort_by q.sort_order
      (SneakerRepository.matchedRecords st q)
    have hd : (SneakerRepository.sortStage q.sort_by q.sort_order
        (SneakerRepository.matchedRecords st q)).drop q.skip = [] :=
      List.drop_eq_nil_of_le (by omega)
    rw [hd]
    exact List.take_nil

/-- Witness for claim C7: skipping 5 rows of a one-row store yields the
empty list. -/
theorem claim_C7_pagination_empty_witness :
    (SneakerRepository.matchedRecords (⟨[⟨1, "Nike", "Air", 100⟩], 2⟩ : SneakerStore)
        ⟨5, 10, none, "asc", none, none, none, none⟩).length ≤ 5 ∧
    SneakerRepository.get_all (⟨[⟨1, "Nike", "Air", 100⟩], 2⟩ : SneakerStore)
        ⟨5, 10, none, "asc", none, none, none, none⟩ = [] :=
  ⟨by decide, (claim_C7_pagination_empty _ _).2 (by decide)⟩

/-- Claim C10: an empty string for filter_brand or search is treated
exactly as an absent parameter, in the sneaker and the vape repository
alike, because the guarding truthiness checks collapse it with None. -/
theorem claim_C10_empty_string_filters_unset (st : SneakerStore) (q : SneakerQuery)
    (vst : VapeStore) (vq : VapeQuery) :
    (SneakerRepository.get_all st { q with filter_brand := some "" } =
      SneakerRepository.get_all st { q with filter_brand := none }) ∧
    (SneakerRepository.get_all st { q with search := some "" } =
      SneakerRepository.get_all st { q with search := none }) ∧
    (VapeRepository.get_all vst { vq with filter_brand := some "" } =
      VapeRepository.get_all vst { vq with filter_brand := none }) ∧
    (VapeRepository.get_all vst { vq with search := some "" } =
      VapeRepository.get_all vst { vq with search := none }) := by
  refine ⟨?_, ?_, ?_, ?_⟩ <;>
    simp [SneakerRepository.get_all, VapeRepository.get_all,
      SneakerRepository.matchedRecords, VapeRepository.matchedRecords,
      SneakerRepository.brandFilter, VapeRepository.brandFilter,
      SneakerRepository.searchFilter, VapeRepository.searchFilter, truthyStr]

/-- Claim C8: when sort_by names a declared column, any sort_order other
than case-insensitive desc yields ascending order on that column, and a
case-insensitive desc yields descending order; sorting permutes the
matched rows. -/
theorem claim_C8_sort_order_direction (st : SneakerStore) (q : SneakerQuery)
    (s : String) (col : SneakerRepository.SneakerColumn)
    (hq : q.sort_by = some s) (hcol : SneakerRepository.getattrColumn s = some col) :
    (SneakerRepository.sortStage q.sort_by q.sort_order
        (SneakerRepository.matchedRecords st q)).Perm
      (SneakerRepository.matchedRecords st q) ∧
    (strLower q.sort_order ≠ "desc" →
      (SneakerRepository.get_all st q).Pairwise
        (fun a b => SneakerRepository.columnLe col a b = true)) ∧
    (strLower q.sort_order = "desc" →
      (SneakerRepository.get_all st q).Pairwise
        (fun a b => SneakerRepository.columnLe col b a = true)) := by
  have hne : s ≠ "" := by
    intro he
    subst he
    simp [SneakerRepository.getattrColumn] at hcol
  have ht : truthyStr q.sort_by = true := by
    rw [hq]
    simp [truthyStr, hne]
  refine ⟨SneakerRepository.sortStage_perm _ _ _, ?_, ?_⟩
  · intro hso
    have hsorted : (SneakerRepository.sortStage q.sort_by q.sort_order
        (SneakerRepository.matchedRecords st q)).Pairwise
        (fun a b => SneakerRepository.columnLe col a b = true) := by
      unfold SneakerRepository.sortStage
      rw [if_pos ht]
      simp only [hq, Option.getD_some, hcol]
      rw [if_neg (by simp [hso])]
      haveI : IsTotal Sneaker (fun a b => SneakerRepository.columnLe col a b = true) :=
        ⟨fun a b => SneakerRepository.columnLe_total col a b⟩
      haveI : IsTrans Sneaker (fun a b => SneakerRepository.columnLe col a b = true) :=
        ⟨fun a b c => SneakerRepository.columnLe_trans col⟩
      exact List.sorted_insertionSort _ _
    exact List.Pairwise.sublist
      ((List.take_sublist _ _).trans (List.drop_sublist _ _)) hsorted
  · intro hso
    have hsorted : (SneakerRepository.sortStage q.sort_by q.sort_order
        (SneakerRepository.matchedRecords st q)).Pairwise
        (fun a b => SneakerRepository.columnLe col b a = true) := by
      unfold SneakerRepository.sortStage
      rw [if_pos ht]
      simp only [hq, Option.getD_some, hcol]
      rw [if_pos (by simp [hso])]
      haveI : IsTotal Sneaker (fun a b => SneakerRepository.columnLe col b a = true) :=
        ⟨fun a b => SneakerRepository.columnLe_total col b a⟩
      haveI : IsTrans Sneaker (fun a b => SneakerRepository.columnLe col b a = true) :=
        ⟨fun a b c hab hbc => SneakerRepository.columnLe_trans col hbc hab⟩
      exact List.sorted_insertionSort _ _
    exact List.Pairwise.sublist
      ((List.take_sublist _ _).trans (List.drop_sublist _ _)) hsorted

/-- Witness for claim C8: sorting a concrete store by price descending
yields a price-descending result. -/
theorem claim_C8_sort_order_direction_witness :
    (strLower "DESC" = "desc") ∧
    (SneakerRepository.get_all
        (⟨[⟨1, "Nike", "Air", 100⟩, ⟨2, "Puma", "Rider", 60⟩], 3⟩ : SneakerStore)
        ⟨0, 10, some "price", "DESC", none, none, none, none⟩).Pairwise
      (fun a b => SneakerRepository.columnLe SneakerRepository.SneakerColumn.price b a = true) :=
  ⟨by decide,
    (claim_C8_sort_order_direction _ _ "price" SneakerRepository.SneakerColumn.price
      rfl rfl).2.2 (by decide)⟩

/-- Claim C9: every reachable store state assigns pairwise distinct ids,
update never changes the id of any stored record, and create only appends
a fresh id to the existing ones. -/
theorem claim_C9_id_unique_and_immutable (st : SneakerStore) (h : ReachableStore st) :
    (st.records.map Sneaker.id).Nodup ∧
    (∀ i u, ((SneakerRepository.update st i u).2.records.map Sneaker.id) =
      st.records.map Sneaker.id) ∧
    (∀ d, ((SneakerRepository.create st d).2.records.map Sneaker.id) =
      st.records.map Sneaker.id ++ [st.nextId]) := by
  refine ⟨(reachable_inv h).1, ?_, ?_⟩
  · intro i u
    unfold SneakerRepository.update
    cases hg : SneakerRepository.get_by_id st i with
    | none => rfl
    | some r =>
        have hid : (SneakerRepository.applyUpdate u r).id = i := by
          have := SneakerRepository.get_by_id_id hg
          simpa [SneakerRepository.applyUpdate] using this
        simpa using SneakerRepository.replaceById_map_id hid st.records
  · intro d
    simp [SneakerRepository.create]

/-- Witness for claim C9 at the store reached by one create from the
fresh database. -/
theorem claim_C9_id_unique_and_immutable_witness :
    ReachableStore (SneakerRepository.create SneakerStore.empty ⟨"Nike", "Air", 100⟩).2 ∧
    ((SneakerRepository.create SneakerStore.empty
        ⟨"Nike", "Air", 100⟩).2.records.map Sneaker.id).Nodup :=
  ⟨ReachableStore.createStep _ ReachableStore.init,
    (claim_C9_id_unique_and_immutable _
      (ReachableStore.createStep _ ReachableStore.init)).1⟩
